import Mathlib

/-!
Verification development for the `bt` BitTorrent client (Rust).

The Rust sources are embedded shallowly:

* bencode values reaching the decoders are modelled by the `Bencode` tree,
  mirroring `bendy::decoding::Object` (`Integer`, `Bytes`, `List`, `Dict`);
  a dictionary is the list of its key/value pairs in document order (the
  `bendy` raw decoder only ever hands decoders dictionaries whose keys are
  strictly ascending byte strings, since it enforces canonical bencode);
* a Rust `String` is modelled as its UTF-8 byte list (`RustString`);
* fallible Rust code returns `Except RErr`; a Rust panic (from `expect`,
  `unwrap`, `panic!`, out-of-range slicing or `copy_from_slice` length
  mismatch) is the distinguished error `RErr.panicked`, kept separate from
  returned `bendy::decoding::Error` values (`RErr.bendy`);
* machine integers are `Nat`/`Int` with explicit bounds where the Rust
  parse functions enforce them.

Each decoder definition follows one function of the source
(`src/metainfo.rs`, `src/bittorrent.rs`, `src/download.rs`, `src/util.rs`)
arm by arm, in source order.
-/

namespace BT

/-- Bytes of an ASCII string literal, used for bencode dictionary keys and
byte-string constants of the source. -/
def strBytes (s : String) : List Nat := s.data.map Char.toNat

/-- Rust `String` modelled as its UTF-8 byte sequence. -/
abbrev RustString := List Nat

/-- Model of `bendy::decoding::Object`: the value handed to
`decode_bencode_object`. A `dict` carries its pairs in document order. -/
inductive Bencode where
  | int (n : Int)
  | bytes (bs : List Nat)
  | list (xs : List Bencode)
  | dict (ps : List (List Nat × Bencode))

/-- Model of `bendy::decoding::Error` as the decoders of this repository
construct and receive it. -/
inductive BendyError where
  | unexpectedToken (expected got : String)
  | unexpectedField (field : RustString)
  | missingField (field : String)
  | malformedContent (what : String)
deriving DecidableEq

/-- Outcome of running a fallible piece of Rust code: a returned
`bendy::decoding::Error`, or a panic (which aborts the surrounding call). -/
inductive RErr where
  | bendy (e : BendyError)
  | panicked (msg : String)
deriving DecidableEq

/-- Result of fallible Rust code. -/
abbrev RResult (α : Type) := Except RErr α

instance exceptDecEq {ε α : Type} [DecidableEq ε] [DecidableEq α] :
    DecidableEq (Except ε α) := fun a b =>
  match a, b with
  | .ok x, .ok y =>
    if h : x = y then .isTrue (by rw [h]) else .isFalse (by intro hc; cases hc; exact h rfl)
  | .error x, .error y =>
    if h : x = y then .isTrue (by rw [h]) else .isFalse (by intro hc; cases hc; exact h rfl)
  | .ok _, .error _ => .isFalse (by intro hc; cases hc)
  | .error _, .ok _ => .isFalse (by intro hc; cases hc)

/-- Token name used in `bendy` unexpected-token errors. -/
def tokenName : Bencode → String
  | .int _ => "Integer"
  | .bytes _ => "ByteString"
  | .list _ => "List"
  | .dict _ => "Dict"

/-- Model of `Object::try_into_bytes`: succeeds only on a byte-string object. -/
def tryIntoBytes : Bencode → RResult (List Nat)
  | .bytes bs => .ok bs
  | o => .error (.bendy (.unexpectedToken "ByteString" (tokenName o)))

/-- Model of `Object::try_into_list`: succeeds only on a list object. -/
def tryIntoList : Bencode → RResult (List Bencode)
  | .list xs => .ok xs
  | o => .error (.bendy (.unexpectedToken "List" (tokenName o)))

/-- Model of `Object::try_into_dictionary`: succeeds only on a dictionary
object; the pair list stands for the stream of `next_pair` results. -/
def tryIntoDict : Bencode → RResult (List (List Nat × Bencode))
  | .dict ps => .ok ps
  | o => .error (.bendy (.unexpectedToken "Dict" (tokenName o)))

/-- Model of `Object::try_into_integer`. -/
def tryIntoInt : Bencode → RResult Int
  | .int n => .ok n
  | o => .error (.bendy (.unexpectedToken "Integer" (tokenName o)))

/-- True for UTF-8 continuation bytes `0x80..0xBF`. -/
def isCont (c : Nat) : Bool := 128 ≤ c && c < 192

/-- UTF-8 validity of a byte sequence, following the table of RFC 3629
(rejecting overlong forms, surrogates and code points above U+10FFFF);
this is the acceptance condition of Rust `String::from_utf8`. -/
def utf8Valid : List Nat → Bool
  | [] => true
  | c :: rest =>
    if c < 128 then utf8Valid rest
    else
      match rest with
      | [] => false
      | c2 :: rest2 =>
        if 194 ≤ c && c < 224 then isCont c2 && utf8Valid rest2
        else
          match rest2 with
          | [] => false
          | c3 :: rest3 =>
            if c = 224 then (160 ≤ c2 && c2 < 192) && isCont c3 && utf8Valid rest3
            else if (225 ≤ c && c < 237) || c = 238 || c = 239 then
              isCont c2 && isCont c3 && utf8Valid rest3
            else if c = 237 then (128 ≤ c2 && c2 < 160) && isCont c3 && utf8Valid rest3
            else
              match rest3 with
              | [] => false
              | c4 :: rest4 =>
                if c = 240 then
                  (144 ≤ c2 && c2 < 192) && isCont c3 && isCont c4 && utf8Valid rest4
                else if 241 ≤ c && c < 244 then
                  isCont c2 && isCont c3 && isCont c4 && utf8Valid rest4
                else if c = 244 then
                  (128 ≤ c2 && c2 < 144) && isCont c3 && isCont c4 && utf8Valid rest4
                else false

/-- Model of `String::decode_bencode_object` (`bendy`): the object must be a
byte string holding valid UTF-8; the Rust `String` keeps those bytes. -/
def stringDecode (o : Bencode) : RResult RustString := do
  let bs ← tryIntoBytes o
  if utf8Valid bs then .ok bs
  else .error (.bendy (.malformedContent "invalid utf-8"))

/-- Model of `u64::decode_bencode_object`: an integer object whose value fits
in an unsigned 64-bit machine integer. -/
def u64Decode (o : Bencode) : RResult Nat := do
  let n ← tryIntoInt o
  if 0 ≤ n ∧ n < 18446744073709551616 then .ok n.toNat
  else .error (.bendy (.malformedContent "invalid u64"))

/-- Model of `usize::decode_bencode_object` on a 64-bit target. -/
def usizeDecode (o : Bencode) : RResult Nat := u64Decode o

/-- Model of `u8::decode_bencode_object`. -/
def u8Decode (o : Bencode) : RResult Nat := do
  let n ← tryIntoInt o
  if 0 ≤ n ∧ n < 256 then .ok n.toNat
  else .error (.bendy (.malformedContent "invalid u8"))

/-- Strict lexicographic byte-string order, the order `bendy` enforces on the
keys of every dictionary it hands to a decoder (canonical bencode). -/
def bytesLt : List Nat → List Nat → Bool
  | [], [] => false
  | [], _ :: _ => true
  | _ :: _, [] => false
  | a :: as, b :: bs => if a < b then true else if b < a then false else bytesLt as bs

/-! ## util.rs -/

/-- Lowercase hexadecimal digit of a value below 16, as its ASCII byte
(the `{:02x}` format of Rust emits lowercase digits). -/
def hexDigitByte (n : Nat) : Nat := if n < 10 then 48 + n else 87 + n

/-- Embedding of `url_encode_byte_string` (`src/util.rs` lines 5-18): a byte
`c` with `c < 32 || c >= 127` becomes a percent sign and the two lowercase
hex digits of `c`; every other byte is written as the literal character
(ASCII, hence the byte itself in the output string's UTF-8). -/
def url_encode_byte_string (data : List Nat) : RustString :=
  data.flatMap fun c =>
    if c < 32 ∨ 127 ≤ c then [37, hexDigitByte (c / 16), hexDigitByte (c % 16)]
    else [c]

/-- Modelled from the spec: the "external strict percent-decoder" of §8 —
missing from `src/` (the repository only encodes). A percent sign must be
followed by exactly two hexadecimal digits and decodes to that byte; any
other byte stands for itself; anything else is rejected. -/
def percentDecode : List Nat → Option (List Nat)
  | [] => some []
  | c :: rest =>
    if c = 37 then
      match rest with
      | a :: b :: rest2 =>
        match hexVal a, hexVal b with
        | some x, some y => (percentDecode rest2).map fun l => (16 * x + y) :: l
        | _, _ => none
      | _ => none
    else (percentDecode rest).map fun l => c :: l
where
  /-- Value of an ASCII hexadecimal digit. -/
  hexVal (c : Nat) : Option Nat :=
    if 48 ≤ c ∧ c ≤ 57 then some (c - 48)
    else if 97 ≤ c ∧ c ≤ 102 then some (c - 87)
    else if 65 ≤ c ∧ c ≤ 70 then some (c - 55)
    else none

/-! ## bittorrent.rs: DownloadProgress, handshake -/

/-- Embedding of `DownloadProgress` (`src/bittorrent.rs` lines 152-158). -/
structure DownloadProgress where
  bytes_total : Nat
  bytes_downloaded : Nat
  bytes_uploaded : Nat
  pieces_fetched : List Bool
deriving DecidableEq

/-- Embedding of `DownloadProgress::finished` (`src/bittorrent.rs`
lines 160-164): compares the two byte counters and nothing else. -/
def DownloadProgress.finished (p : DownloadProgress) : Bool :=
  p.bytes_downloaded == p.bytes_total

/-- Byte constant `b"BitTorrent protocol"` written by the handshake. -/
def protocolBytes : List Nat := strBytes "BitTorrent protocol"

/-- Embedding of the buffer assembled by `PeerConnection::handshake`
(`src/bittorrent.rs` lines 133-137): the length byte `0x13`, the protocol
literal, the info-hash bytes and the peer-id bytes — the source writes no
reserved bytes between the literal and the info-hash, and after flushing
this buffer it returns without reading anything from the socket. -/
def handshakeBuffer (infoHash peerId : List Nat) : List Nat :=
  [19] ++ protocolBytes ++ infoHash ++ peerId

/-! ## download.rs: announce query string -/

/-- Decimal rendering of a natural number, as `usize::to_string`. -/
def natDecimal (n : Nat) : RustString := (Nat.toDigits 10 n).map Char.toNat

/-- Embedding of the query-parameter list built by `announce`
(`src/download.rs` lines 265-269): exactly three pairs; the `Display`
implementations of `InfoHash` and `PeerId` (`src/bittorrent.rs` lines 17-21
and 58-62) render their bytes through `url_encode_byte_string`. -/
def announceQuery (infoHash peerId : List Nat) (port : Nat) :
    List (RustString × RustString) :=
  [(strBytes "info_hash", url_encode_byte_string infoHash),
   (strBytes "peer_id", url_encode_byte_string peerId),
   (strBytes "port", natDecimal port)]

/-! ## download.rs / bittorrent.rs: Peer::from_slice -/

/-- UTF-8 bytes of the Rust `char` obtained by `char::from(n : u8)` (the
Unicode scalar U+00NN), as pushed into a `String`. -/
def latin1Utf8 (n : Nat) : List Nat :=
  if n < 128 then [n] else [192 ||| (n >>> 6), 128 ||| (n &&& 63)]

/-- Big-endian value of a byte list, as `usize::from_be_bytes`. -/
def beToNat (bs : List Nat) : Nat := bs.foldl (fun a b => a * 256 + b) 0

/-- Embedding of `Peer` (`src/download.rs` lines 7-12): optional peer id
(raw bytes), ip rendered as a `String`, and a `usize` port. -/
structure Peer where
  id : Option (List Nat)
  ip : RustString
  port : Nat
deriving DecidableEq

/-- Embedding of `Peer::from_slice` (`src/download.rs` lines 15-31, duplicated
at `src/bittorrent.rs` lines 180-196). The source slices `b[0..=4]` — the
first FIVE bytes — maps each through `char::from` (code point, not decimal
text), intersperses `'.'`, then copies `b[5..]` into an 8-byte buffer with
`copy_from_slice`, which panics unless `b.len() - 5 == 8`; slicing `b[0..=4]`
itself panics when `b.len() < 5`. -/
def Peer.from_slice (b : List Nat) : RResult Peer :=
  if b.length < 5 then
    .error (.panicked "range end index 5 out of range")
  else
    let ip : RustString := (((b.take 5).map latin1Utf8).intersperse [46]).flatten
    if b.length - 5 = 8 then
      .ok { id := none, ip := ip, port := beToNat (b.drop 5) }
    else
      .error (.panicked "copy_from_slice length mismatch")

/-! ## download.rs: Peer and PeerInfoResult bencode decoders -/

/-- Dictionary keys matched by the decoders, as byte strings. -/
def frKey : List Nat := strBytes "failure reason"

/-- Key `peers`. -/
def peersKey : List Nat := strBytes "peers"

/-- Key `tracker_id`. -/
def trackerIdKey : List Nat := strBytes "tracker_id"

/-- Key `complete`. -/
def completeKey : List Nat := strBytes "complete"

/-- Key `incomplete`. -/
def incompleteKey : List Nat := strBytes "incomplete"

/-- Key `interval`. -/
def intervalKey : List Nat := strBytes "interval"

/-- Key `min interval`. -/
def minIntervalKey : List Nat := strBytes "min interval"

/-- Key `warning message`. -/
def warningKey : List Nat := strBytes "warning message"

/-- Key `id`. -/
def idKey : List Nat := strBytes "id"

/-- Key `ip`. -/
def ipKey : List Nat := strBytes "ip"

/-- Key `port`. -/
def portKey : List Nat := strBytes "port"

/-- Model of `PeerId::decode_bencode_object` (`src/bittorrent.rs` lines
43-53): any byte string, kept as raw bytes. -/
def peerIdDecode (o : Bencode) : RResult (List Nat) := tryIntoBytes o

/-- Embedding of the dictionary loop of `Peer::decode_bencode_object`
(`src/download.rs` lines 61-93), with its finalization: missing-field error
only when both `ip` and `port` are absent, otherwise `expect` panics for
whichever of the two is missing (`ip` is unwrapped first). -/
def peerLoop : List (List Nat × Bencode) → Option (List Nat) → Option RustString →
    Option Nat → RResult Peer
  | [], id?, ip?, port? =>
    match ip?, port? with
    | none, none => .error (.bendy (.missingField "ip or port not set"))
    | some ip, some port => .ok { id := id?, ip := ip, port := port }
    | none, some _ => .error (.panicked "should have set ip")
    | some _, none => .error (.panicked "should have set port")
  | (k, v) :: rest, id?, ip?, port? =>
    if k = idKey then do
      let pid ← peerIdDecode v
      peerLoop rest (some pid) ip? port?
    else if k = ipKey then do
      let s ← stringDecode v
      peerLoop rest id? (some s) port?
    else if k = portKey then do
      let p ← usizeDecode v
      peerLoop rest id? ip? (some p)
    else if utf8Valid k then .error (.bendy (.unexpectedField k))
    else .error (.panicked "malformed key value")

/-- Embedding of `Peer::decode_bencode_object` (`src/download.rs`
lines 61-93). -/
def Peer.decode_bencode_object (o : Bencode) : RResult Peer := do
  let ps ← tryIntoDict o
  peerLoop ps none none none

/-- Embedding of `PeerInfoResult` (`src/download.rs` lines 95-107): either
the failure variant carrying the `failure reason` string, or the success
record. -/
inductive PeerInfoResult where
  | Error (failure_reason : RustString)
  | PeerInfo (warning_message : Option RustString) (interval : Nat)
      (min_interval : Option Nat) (tracker_id : Option RustString)
      (complete : Nat) (incomplete : Nat) (peers : List Peer)
deriving DecidableEq

/-- Mutable locals of `PeerInfoResult::decode_bencode_object`
(`src/download.rs` lines 163-169). -/
structure PIRState where
  peers : Option (List Peer) := none
  tracker_id : Option RustString := none
  complete : Option Nat := none
  incomplete : Option Nat := none
  interval : Option Nat := none
  min_interval : Option Nat := none
  warning_message : Option RustString := none

/-- Fixed-size chunking with explicit fuel (`slice::chunks`): every chunk has
`n` elements except a possibly shorter last one. -/
def chunksGo (n : Nat) : Nat → List α → List (List α)
  | _, [] => []
  | 0, _ :: _ => []
  | fuel + 1, x :: xs => (x :: xs).take n :: chunksGo n fuel ((x :: xs).drop n)

/-- Model of `slice::chunks(n)` collected to a list, for `n > 0`. -/
def listChunks (n : Nat) (l : List α) : List (List α) := chunksGo n l.length l

/-- Decoding of the dictionary-list form of `peers` (the `while let` over the
list at `src/download.rs` lines 183-185). -/
def decodePeerList : List Bencode → RResult (List Peer)
  | [] => .ok []
  | o :: rest => do
    let p ← Peer.decode_bencode_object o
    let ps ← decodePeerList rest
    .ok (p :: ps)

/-- Decoding of the compact form of `peers` (the `for peer in
peer_bytes.chunks(6)` loop at `src/download.rs` lines 187-189). -/
def chunkPeers : List (List Nat) → RResult (List Peer)
  | [] => .ok []
  | c :: rest => do
    let p ← Peer.from_slice c
    let ps ← chunkPeers rest
    .ok (p :: ps)

/-- Embedding of the `peers` arm (`src/download.rs` lines 177-192): the value
is first forced to bytes with `try_into_bytes` (so a bencoded list value is
rejected right here); the subsequent `Object::Bytes(peer_bytes)
.try_into_list()` can only ever take its `Err` branch, after which the bytes
are chunked into 6-byte compact entries. -/
def decodePeersValue (v : Bencode) : RResult (List Peer) := do
  let peerBytes ← tryIntoBytes v
  match tryIntoList (.bytes peerBytes) with
  | .ok xs => decodePeerList xs
  | .error _ => chunkPeers (listChunks 6 peerBytes)

/-- Embedding of the dictionary loop of `PeerInfoResult::decode_bencode_object`
(`src/download.rs` lines 171-217), arms in source order; the `failure reason`
arm returns `Ok(PeerInfoResult::Error(..))` immediately. -/
def pirLoop : List (List Nat × Bencode) → PIRState → RResult PeerInfoResult
  | [], st => pirFinalize st
  | (k, v) :: rest, st =>
    if k = frKey then do
      let f ← stringDecode v
      .ok (.Error f)
    else if k = peersKey then do
      let pl ← decodePeersValue v
      pirLoop rest { st with peers := some pl }
    else if k = trackerIdKey then do
      let s ← stringDecode v
      pirLoop rest { st with tracker_id := some s }
    else if k = completeKey then do
      let n ← u64Decode v
      pirLoop rest { st with complete := some n }
    else if k = incompleteKey then do
      let n ← u64Decode v
      pirLoop rest { st with incomplete := some n }
    else if k = intervalKey then do
      let n ← u64Decode v
      pirLoop rest { st with interval := some n }
    else if k = minIntervalKey then do
      let n ← u64Decode v
      pirLoop rest { st with min_interval := some n }
    else if k = warningKey then do
      let s ← stringDecode v
      pirLoop rest { st with warning_message := some s }
    else if utf8Valid k then .error (.bendy (.unexpectedField k))
    else .error (.panicked "malformed key value")
where
  /-- Finalization (`src/download.rs` lines 218-240): the missing-field error
  fires only when `interval`, `complete` and `incomplete` are all absent;
  otherwise the `expect` calls panic in struct-literal order (`interval`,
  `complete`, `incomplete`, `peers`). -/
  pirFinalize (st : PIRState) : RResult PeerInfoResult :=
    match st.interval, st.complete, st.incomplete with
    | none, none, none => .error (.bendy (.missingField "interval"))
    | i?, c?, ic? =>
      match i? with
      | none => .error (.panicked "should contain interval")
      | some i =>
        match c? with
        | none => .error (.panicked "should contain complete")
        | some c =>
          match ic? with
          | none => .error (.panicked "should contain incomplete")
          | some ic =>
            match st.peers with
            | none => .error (.panicked "should contain peers")
            | some ps =>
              .ok (.PeerInfo st.warning_message i st.min_interval st.tracker_id c ic ps)

/-- Embedding of `PeerInfoResult::decode_bencode_object` (`src/download.rs`
lines 156-242). -/
def PeerInfoResult.decode_bencode_object (o : Bencode) : RResult PeerInfoResult := do
  let ps ← tryIntoDict o
  pirLoop ps {}

/-- Well-formedness of one recognized key/value pair of a tracker response,
matching exactly what the corresponding arm of the loop accepts: the four
counter keys take integers in `u64` range, the two text keys take valid
UTF-8 byte strings, and `peers` takes a byte string that survives compact
chunking (only the empty one does — any non-empty blob panics inside
`Peer::from_slice`). Integer objects in `u64` range first: -/
def validU64V : Bencode → Bool
  | .int n => decide (0 ≤ n ∧ n < 18446744073709551616)
  | _ => false

/-- Byte-string object holding valid UTF-8 (what the string decoder accepts). -/
def validStrV : Bencode → Bool
  | .bytes bs => utf8Valid bs
  | _ => false

/-- Integer object in `u8` range (what the `u8` decoder accepts). -/
def validU8V : Bencode → Bool
  | .int n => decide (0 ≤ n ∧ n < 256)
  | _ => false

/-- Well-formedness of one recognized tracker-response pair (see below). -/
def pirValidPair (p : List Nat × Bencode) : Bool :=
  (decide (p.1 = completeKey) && validU64V p.2) ||
  ((decide (p.1 = incompleteKey) && validU64V p.2) ||
  ((decide (p.1 = intervalKey) && validU64V p.2) ||
  ((decide (p.1 = minIntervalKey) && validU64V p.2) ||
  ((decide (p.1 = trackerIdKey) && validStrV p.2) ||
  ((decide (p.1 = warningKey) && validStrV p.2) ||
  (decide (p.1 = peersKey) && (match p.2 with | .bytes [] => true | _ => false)))))))

/-- Tracker response used to exhibit the dead dictionary-list branch: a
canonically ordered dictionary whose `peers` value is a well-formed bencoded
list holding one peer dictionary. -/
def c5PeersList : Bencode :=
  .dict [(completeKey, .int 0), (incompleteKey, .int 0), (intervalKey, .int 1800),
         (peersKey, .list [.dict [(ipKey, .bytes (strBytes "1.2.3.4")),
                                  (portKey, .int 80)]])]

/-- Progress value whose counters agree while a piece is still unfetched. -/
def c7Bad : DownloadProgress :=
  { bytes_total := 0, bytes_downloaded := 0, bytes_uploaded := 0,
    pieces_fetched := [false] }

/-! ## SHA-1 (the `sha1_checked` digest used by `InfoHash::from_info_bytes`) -/

/-- Left rotation of a 32-bit word. -/
def rotl32 (s x : Nat) : Nat := ((x <<< s) ||| (x >>> (32 - s))) % 4294967296

/-- Big-endian bytes of a 32-bit word. -/
def word32ToBytes (w : Nat) : List Nat :=
  [w / 16777216 % 256, w / 65536 % 256, w / 256 % 256, w % 256]

/-- Big-endian bytes of a 64-bit word. -/
def word64ToBytes (w : Nat) : List Nat :=
  word32ToBytes (w / 4294967296 % 4294967296) ++ word32ToBytes (w % 4294967296)

/-- SHA-1 padding: a `0x80` byte, zeros up to 56 mod 64, then the bit length
as a big-endian 64-bit word. -/
def sha1Pad (msg : List Nat) : List Nat :=
  msg ++ 128 :: List.replicate ((119 - msg.length % 64) % 64) 0
      ++ word64ToBytes ((8 * msg.length) % 18446744073709551616)

/-- Message schedule: the 16 block words extended to 80. -/
def sha1Schedule (ws : List Nat) : List Nat :=
  (List.range 64).foldl
    (fun acc _ =>
      acc ++ [rotl32 1 ((acc.getD (acc.length - 3) 0) ^^^ (acc.getD (acc.length - 8) 0)
        ^^^ (acc.getD (acc.length - 14) 0) ^^^ (acc.getD (acc.length - 16) 0))])
    ws

/-- Round function of SHA-1. -/
def sha1F (t b c d : Nat) : Nat :=
  if t < 20 then (b &&& c) ||| ((b ^^^ 4294967295) &&& d)
  else if t < 40 then b ^^^ c ^^^ d
  else if t < 60 then (b &&& c) ||| (b &&& d) ||| (c &&& d)
  else b ^^^ c ^^^ d

/-- Round constant of SHA-1. -/
def sha1K (t : Nat) : Nat :=
  if t < 20 then 1518500249
  else if t < 40 then 1859775393
  else if t < 60 then 2400959708
  else 3395469782

/-- Running hash state of SHA-1. -/
structure Sha1State where
  h0 : Nat
  h1 : Nat
  h2 : Nat
  h3 : Nat
  h4 : Nat

/-- Compression of one 64-byte block. -/
def sha1Compress (st : Sha1State) (block : List Nat) : Sha1State :=
  let w := sha1Schedule ((listChunks 4 block).map beToNat)
  let f := (List.range 80).foldl
    (fun (r : Nat × Nat × Nat × Nat × Nat) t =>
      let tmp := (rotl32 5 r.1 + sha1F t r.2.1 r.2.2.1 r.2.2.2.1 + r.2.2.2.2
        + sha1K t + w.getD t 0) % 4294967296
      (tmp, r.1, rotl32 30 r.2.1, r.2.2.1, r.2.2.2.1))
    (st.h0, st.h1, st.h2, st.h3, st.h4)
  { h0 := (st.h0 + f.1) % 4294967296, h1 := (st.h1 + f.2.1) % 4294967296,
    h2 := (st.h2 + f.2.2.1) % 4294967296, h3 := (st.h3 + f.2.2.2.1) % 4294967296,
    h4 := (st.h4 + f.2.2.2.2) % 4294967296 }

/-- SHA-1 digest (20 bytes) of a byte sequence. -/
def sha1 (msg : List Nat) : List Nat :=
  let fin := (listChunks 64 (sha1Pad msg)).foldl sha1Compress
    { h0 := 1732584193, h1 := 4023233417, h2 := 2562383102, h3 := 271733878,
      h4 := 3285377520 }
  word32ToBytes fin.h0 ++ word32ToBytes fin.h1 ++ word32ToBytes fin.h2
    ++ word32ToBytes fin.h3 ++ word32ToBytes fin.h4

/-! ## metainfo.rs: File, Info, MetaInfoFile -/

/-- Key `name`. -/
def nameKey : List Nat := strBytes "name"

/-- Key `piece length`. -/
def pieceLengthKey : List Nat := strBytes "piece length"

/-- Key `pieces`. -/
def piecesKey : List Nat := strBytes "pieces"

/-- Key `length`. -/
def lengthKey : List Nat := strBytes "length"

/-- Key `private`. -/
def privateKey : List Nat := strBytes "private"

/-- Key `files`. -/
def filesKey : List Nat := strBytes "files"

/-- Key `path`. -/
def pathKey : List Nat := strBytes "path"

/-- Key `md5sum`. -/
def md5sumKey : List Nat := strBytes "md5sum"

/-- Key `announce`. -/
def announceKey : List Nat := strBytes "announce"

/-- Key `announce-list`. -/
def announceListKey : List Nat := strBytes "announce-list"

/-- Key `created by`. -/
def createdByKey : List Nat := strBytes "created by"

/-- Key `info`. -/
def infoKey : List Nat := strBytes "info"

/-- Key `comment`. -/
def commentKey : List Nat := strBytes "comment"

/-- Key `creation date`. -/
def creationDateKey : List Nat := strBytes "creation date"

/-- Key `encoding`. -/
def encodingKey : List Nat := strBytes "encoding"

/-- Lowercase hex rendering of bytes, as `hex::encode`. -/
def hexEncode (bs : List Nat) : RustString :=
  bs.flatMap fun b => [hexDigitByte (b / 16), hexDigitByte (b % 16)]

/-- Embedding of `File` (`src/metainfo.rs` lines 7-12). -/
structure File where
  length : Nat
  path : List RustString
  md5sum : Option RustString
deriving DecidableEq

/-- Mutable locals of `File::decode_bencode_object`. -/
structure FileState where
  length : Option Nat := none
  path : Option (List RustString) := none
  md5sum : Option RustString := none

/-- Sequential string decoding of a bencode list (`while let` push loop). -/
def decodeStringList : List Bencode → RResult (List RustString)
  | [] => .ok []
  | o :: rest => do
    let s ← stringDecode o
    let ss ← decodeStringList rest
    .ok (s :: ss)

/-- One arm of the `File` dictionary loop (`src/metainfo.rs` lines 30-50):
`length` via `u64`, `path` as a list of strings, `md5sum` as a string;
an unrecognized key is silently ignored (`(_, _) => {}`). -/
def fileStep (k : List Nat) (v : Bencode) (st : FileState) : RResult FileState :=
  if k = lengthKey then do
    let l ← u64Decode v
    .ok { st with length := some l }
  else if k = pathKey then do
    let xs ← tryIntoList v
    let ss ← decodeStringList xs
    .ok { st with path := some ss }
  else if k = md5sumKey then do
    let s ← stringDecode v
    .ok { st with md5sum := some s }
  else .ok st

/-- Finalization of the `File` decoder (`src/metainfo.rs` lines 53-61):
`panic!("no length or path")` when either required field is absent. -/
def fileFinalize (st : FileState) : RResult File :=
  match st.length, st.path with
  | some l, some p => .ok { length := l, path := p, md5sum := st.md5sum }
  | _, _ => .error (.panicked "no length or path")

/-- The `File` dictionary loop. -/
def fileLoop : List (List Nat × Bencode) → FileState → RResult File
  | [], st => fileFinalize st
  | (k, v) :: rest, st => do
    let st2 ← fileStep k v st
    fileLoop rest st2

/-- Embedding of `File::decode_bencode_object` (`src/metainfo.rs` lines
14-63): `try_into_dictionary().expect("Shoudl be a dictionary")` panics on a
non-dictionary object. -/
def File.decode_bencode_object (o : Bencode) : RResult File :=
  match tryIntoDict o with
  | .ok ps => fileLoop ps {}
  | .error _ => .error (.panicked "Shoudl be a dictionary")

/-- Embedding of `Info` (`src/metainfo.rs` lines 79-94). -/
inductive Info where
  | SingleFileInfo (name : RustString) (piece_length : Nat) (pieces : List RustString)
      (length : Nat) (private_ : Option Bool)
  | MultiFileInfo (name : RustString) (piece_length : Nat) (pieces : List RustString)
      (private_ : Option Bool) (files : List File)
deriving DecidableEq

/-- Mutable locals of `Info::decode_bencode_object`
(`src/metainfo.rs` lines 104-109). -/
structure InfoState where
  name : Option RustString := none
  piece_length : Option Nat := none
  pieces : Option (List RustString) := none
  length : Option Nat := none
  private_ : Option Bool := none
  files : Option (List File) := none

/-- Sequential `File` decoding of a bencode list (the `files` arm's
`while let` loop). -/
def decodeFileList : List Bencode → RResult (List File)
  | [] => .ok []
  | o :: rest => do
    let f ← File.decode_bencode_object o
    let fs ← decodeFileList rest
    .ok (f :: fs)

/-- One arm of the `Info` dictionary loop (`src/metainfo.rs` lines 112-154):
`pieces` is forced to bytes with `.expect("could not parse pieces key")`
(panic on failure) and chunked into 20-byte hex strings; `private` is a
`u8` compared to 1; `files` is forced to a list with `.expect("files must
be a list")`; an unrecognized key is silently ignored (`(_, _) => {}`). -/
def infoStep (k : List Nat) (v : Bencode) (st : InfoState) : RResult InfoState :=
  if k = nameKey then do
    let s ← stringDecode v
    .ok { st with name := some s }
  else if k = pieceLengthKey then do
    let n ← u64Decode v
    .ok { st with piece_length := some n }
  else if k = piecesKey then
    match tryIntoBytes v with
    | .ok bs => .ok { st with pieces := some ((listChunks 20 bs).map hexEncode) }
    | .error _ => .error (.panicked "could not parse pieces key")
  else if k = lengthKey then do
    let n ← u64Decode v
    .ok { st with length := some n }
  else if k = privateKey then do
    let n ← u8Decode v
    .ok { st with private_ := some (n == 1) }
  else if k = filesKey then
    match tryIntoList v with
    | .ok xs => do
      let fs ← decodeFileList xs
      .ok { st with files := some fs }
    | .error _ => .error (.panicked "files must be a list")
  else .ok st

/-- Finalization of the `Info` decoder (`src/metainfo.rs` lines 157-173):
`Some(length)` selects `SingleFileInfo`, otherwise `MultiFileInfo`; the
`expect` calls panic in struct-literal order (`name`, `piece_length`,
`pieces`, then `length`/`files`). -/
def infoFinalize (st : InfoState) : RResult Info :=
  match st.length with
  | some l =>
    match st.name with
    | none => .error (.panicked "should have name key")
    | some nm =>
      match st.piece_length with
      | none => .error (.panicked "should have piece length key")
      | some pl =>
        match st.pieces with
        | none => .error (.panicked "should have pieces key")
        | some pcs => .ok (.SingleFileInfo nm pl pcs l st.private_)
  | none =>
    match st.name with
    | none => .error (.panicked "should have name key")
    | some nm =>
      match st.piece_length with
      | none => .error (.panicked "should have piece length key")
      | some pl =>
        match st.pieces with
        | none => .error (.panicked "should have pieces key")
        | some pcs =>
          match st.files with
          | none => .error (.panicked "should have files key")
          | some fs => .ok (.MultiFileInfo nm pl pcs st.private_ fs)

/-- The `Info` dictionary loop. -/
def infoLoop : List (List Nat × Bencode) → InfoState → RResult Info
  | [], st => infoFinalize st
  | (k, v) :: rest, st => do
    let st2 ← infoStep k v st
    infoLoop rest st2

/-- Embedding of `Info::decode_bencode_object` (`src/metainfo.rs` lines
96-175): `try_into_dictionary().expect("Info must be a dictionary")` panics
on a non-dictionary object. -/
def Info.decode_bencode_object (o : Bencode) : RResult Info :=
  match tryIntoDict o with
  | .ok ps => infoLoop ps {}
  | .error _ => .error (.panicked "Info must be a dictionary")

/-- Embedding of `InfoHash` (`src/bittorrent.rs` lines 55-72): the SHA-1
digest bytes of the input. -/
structure InfoHash where
  bytes : List Nat
deriving DecidableEq

/-- Embedding of `InfoHash::from_info_bytes` (`src/bittorrent.rs` lines
64-67). -/
def InfoHash.from_info_bytes (b : List Nat) : InfoHash := ⟨sha1 b⟩

/-- Embedding of `MetaInfoFile` (`src/metainfo.rs` lines 234-244). -/
structure MetaInfoFile where
  announce : RustString
  announce_list : Option (List RustString)
  info : Info
  created_by : Option RustString
  creation_date : Option Nat
  comment : Option RustString
  encoding : Option RustString
  info_hash : InfoHash
deriving DecidableEq

/-- Mutable locals of `MetaInfoFile::decode_bencode_object`
(`src/metainfo.rs` lines 254-261). -/
structure MetaState where
  announce : Option RustString := none
  announce_list : Option (List RustString) := none
  created_by : Option RustString := none
  info : Option Info := none
  comment : Option RustString := none
  creation_date : Option Nat := none
  encoding : Option RustString := none
  info_hash : Option InfoHash := none

/-- Flattening decode of `announce-list` (`src/metainfo.rs` lines 271-284):
each element must itself be a list, whose string elements are appended to
one flat vector. -/
def decodeAnnounceList : List Bencode → RResult (List RustString)
  | [] => .ok []
  | o :: rest => do
    let xs ← tryIntoList o
    let ss ← decodeStringList xs
    let rs ← decodeAnnounceList rest
    .ok (ss ++ rs)

/-- One arm of the `MetaInfoFile` dictionary loop (`src/metainfo.rs` lines
264-316). The `announce-list` arm is guarded by `if let Ok(..) =
val.try_into_list()` — a non-list value is silently skipped. The `info` arm
forces the value to bytes with `try_into_bytes` (so a dictionary-shaped
`info` value is rejected right here with an unexpected-token error), hashes
those bytes, then re-decodes them through `Info::decode_bencode_object
(Object::Bytes(..))` — which panics, since a bytes object is never a
dictionary. An unrecognized key is silently ignored. -/
def metaStep (k : List Nat) (v : Bencode) (st : MetaState) : RResult MetaState :=
  if k = announceKey then do
    let s ← stringDecode v
    .ok { st with announce := some s }
  else if k = announceListKey then
    match tryIntoList v with
    | .ok xs => do
      let ss ← decodeAnnounceList xs
      .ok { st with announce_list := some ss }
    | .error _ => .ok st
  else if k = createdByKey then do
    let s ← stringDecode v
    .ok { st with created_by := some s }
  else if k = infoKey then do
    let bs ← tryIntoBytes v
    let inf ← Info.decode_bencode_object (.bytes bs)
    .ok { st with info_hash := some (InfoHash.from_info_bytes bs), info := some inf }
  else if k = commentKey then do
    let s ← stringDecode v
    .ok { st with comment := some s }
  else if k = creationDateKey then do
    let n ← u64Decode v
    .ok { st with creation_date := some n }
  else if k = encodingKey then do
    let s ← stringDecode v
    .ok { st with encoding := some s }
  else .ok st

/-- Finalization of the `MetaInfoFile` decoder (`src/metainfo.rs` lines
319-328): the `expect` calls panic in struct-literal order (`announce`,
`info`, `info_hash`). -/
def metaFinalize (st : MetaState) : RResult MetaInfoFile :=
  match st.announce with
  | none => .error (.panicked "must have announce key")
  | some a =>
    match st.info with
    | none => .error (.panicked "Must have info key")
    | some i =>
      match st.info_hash with
      | none => .error (.panicked "should have info hash")
      | some h =>
        .ok { announce := a, announce_list := st.announce_list, info := i,
              created_by := st.created_by, creation_date := st.creation_date,
              comment := st.comment, encoding := st.encoding, info_hash := h }

/-- The `MetaInfoFile` dictionary loop. -/
def metaLoop : List (List Nat × Bencode) → MetaState → RResult MetaInfoFile
  | [], st => metaFinalize st
  | (k, v) :: rest, st => do
    let st2 ← metaStep k v st
    metaLoop rest st2

/-- Embedding of `MetaInfoFile::decode_bencode_object` (`src/metainfo.rs`
lines 246-330): `try_into_dictionary().expect("meta file must be a dict")`
panics on a non-dictionary object. -/
def MetaInfoFile.decode_bencode_object (o : Bencode) : RResult MetaInfoFile :=
  match tryIntoDict o with
  | .ok ps => metaLoop ps {}
  | .error _ => .error (.panicked "meta file must be a dict")

/-- Well-formed torrent whose top-level dictionary holds an `announce`
string and an `info` dictionary (keys in canonical order), used as C1's
failing input. -/
def c1Torrent : Bencode :=
  .dict [(announceKey, .bytes (strBytes "http://tracker.example/announce")),
         (infoKey, .dict [(lengthKey, .int 3),
                          (nameKey, .bytes (strBytes "a")),
                          (pieceLengthKey, .int 16384),
                          (piecesKey, .bytes [])])]

/-- Well-formed single-file `info` dictionary carrying an unrecognized key
`zzz`, used as C10's counterexample input. -/
def c10Info : Bencode :=
  .dict [(lengthKey, .int 3), (nameKey, .bytes (strBytes "a")),
         (pieceLengthKey, .int 16384), (piecesKey, .bytes []),
         (strBytes "zzz", .int 0)]

/-- Well-formed `info` dictionary containing neither `length` nor `files`,
used as C6's counterexample input. -/
def c6Info : Bencode :=
  .dict [(nameKey, .bytes (strBytes "a")), (pieceLengthKey, .int 16384),
         (piecesKey, .bytes [])]

/-- Pure shadow of `infoStep` on well-formed pairs: the state update each
recognized arm performs, with no possibility of failure. -/
def infoFoldStep (st : InfoState) (p : List Nat × Bencode) : InfoState :=
  if p.1 = nameKey then
    match p.2 with
    | .bytes bs => { st with name := some bs }
    | _ => st
  else if p.1 = pieceLengthKey then
    match p.2 with
    | .int n => { st with piece_length := some n.toNat }
    | _ => st
  else if p.1 = piecesKey then
    match p.2 with
    | .bytes bs => { st with pieces := some ((listChunks 20 bs).map hexEncode) }
    | _ => st
  else if p.1 = lengthKey then
    match p.2 with
    | .int n => { st with length := some n.toNat }
    | _ => st
  else if p.1 = privateKey then
    match p.2 with
    | .int n => { st with private_ := some (n.toNat == 1) }
    | _ => st
  else st

/-- Well-formedness of one `info` pair as the corresponding loop arm
accepts it; a `files` pair is excluded (C6 is about dictionaries without
one), an unrecognized key is allowed with any value (the loop ignores it). -/
def infoValidPair (p : List Nat × Bencode) : Bool :=
  if p.1 = nameKey then validStrV p.2
  else if p.1 = pieceLengthKey then validU64V p.2
  else if p.1 = piecesKey then (match p.2 with | .bytes _ => true | _ => false)
  else if p.1 = lengthKey then validU64V p.2
  else if p.1 = privateKey then validU8V p.2
  else if p.1 = filesKey then false
  else true

/-- True exactly when a result is a returned `bendy::decoding::Error` (as
opposed to success or a panic). -/
def isReturnedError {α : Type} : RResult α → Bool
  | .error (.bendy _) => true
  | _ => false

/-! ## Claim theorems: C2, C3, C7, C8, C9 -/

/-- C2 (code_bug evidence): on the blob `[10,0,0,1,0x1a,0xe1]` — the
repository's own `test_peer_from_slice` fixture — `Peer::from_slice` panics
in `copy_from_slice` (1 source byte vs an 8-byte destination) instead of
producing `ip="10.0.0.1"`, `port=6881` as the test asserts; so decoding a
6-byte compact entry never yields the four-octet decimal ip the claim
describes. -/
theorem c2_from_slice_panics_on_compact_entry :
    Peer.from_slice [10, 0, 0, 1, 26, 225]
      = .error (.panicked "copy_from_slice length mismatch")
    ∧ Peer.from_slice [10, 0, 0, 1, 26, 225]
      ≠ .ok { id := none, ip := strBytes "10.0.0.1", port := 6881 } := by
  refine ⟨rfl, ?_⟩
  decide

/-- C3 (code_bug evidence): the handshake preamble the source assembles has
60 bytes, not 68 — it is the length byte, the 19-byte protocol literal, the
info-hash and the peer-id with no 8 reserved zero bytes in between — shown
here for the all-zero 20-byte info-hash and peer-id; and for every input the
buffer is exactly those four segments, so no reserved bytes are ever written
and nothing is read back. -/
theorem c3_handshake_preamble_is_60_bytes :
    (handshakeBuffer (List.replicate 20 0) (List.replicate 20 0)).length = 60
    ∧ ∀ ih pid : List Nat,
        handshakeBuffer ih pid = [19] ++ protocolBytes ++ ih ++ pid := by
  refine ⟨by decide, fun ih pid => rfl⟩

/-- C7 (counterexample): a `DownloadProgress` whose byte counters agree but
whose per-piece bitmap still holds an unfetched piece reports
`finished() = true`, so `finished()` does not coincide with "every piece is
Complete" and can report finished while a piece remains incomplete. -/
theorem c7_finished_ignores_bitmap_counterexample :
    c7Bad.finished = true ∧ false ∈ c7Bad.pieces_fetched := by
  decide

/-- C7 (amended): `finished()` returns true exactly when
`bytes_downloaded = bytes_total`, and it is entirely independent of the
per-piece completion bitmap. -/
theorem c7_finished_iff_counters_equal (p : DownloadProgress) :
    (p.finished = true ↔ p.bytes_downloaded = p.bytes_total)
    ∧ ∀ bm : List Bool,
        DownloadProgress.finished { p with pieces_fetched := bm } = p.finished := by
  refine ⟨by simp [DownloadProgress.finished], fun bm => rfl⟩

/-- C7 amended witness at a concrete progress value. -/
theorem c7_finished_iff_counters_equal_witness :
    (DownloadProgress.finished
        { bytes_total := 4, bytes_downloaded := 4, bytes_uploaded := 0,
          pieces_fetched := [] } = true ↔ (4 : Nat) = 4)
    ∧ ∀ bm : List Bool,
        DownloadProgress.finished
          { bytes_total := 4, bytes_downloaded := 4, bytes_uploaded := 0,
            pieces_fetched := bm }
          = DownloadProgress.finished
              { bytes_total := 4, bytes_downloaded := 4, bytes_uploaded := 0,
                pieces_fetched := [] } :=
  c7_finished_iff_counters_equal
    { bytes_total := 4, bytes_downloaded := 4, bytes_uploaded := 0,
      pieces_fetched := [] }

/-- C8 (counterexample): the percent sign `0x25` lies inside the source's
safe range `32..=126`, so the input bytes `"%41"` pass through unescaped and
the strict percent-decoder reads them back as the single byte `0x41` — the
original bytes are not recovered although every input byte was in the safe
set. -/
theorem c8_percent_in_safe_set_breaks_roundtrip :
    url_encode_byte_string [37, 52, 49] = [37, 52, 49]
    ∧ percentDecode [37, 52, 49] = some [65]
    ∧ some [65] ≠ some [37, 52, 49] := by
  decide

/-- Hex digits emitted by the encoder decode back to their value. -/
theorem hexVal_hexDigitByte (n : Nat) (h : n < 16) :
    percentDecode.hexVal (hexDigitByte n) = some n := by
  rcases Nat.lt_or_ge n 10 with h10 | h10
  · have he : hexDigitByte n = 48 + n := if_pos h10
    rw [he]
    simp only [percentDecode.hexVal]
    rw [if_pos (by omega)]
    congr 1
    omega
  · have he : hexDigitByte n = 87 + n := if_neg (by omega)
    rw [he]
    simp only [percentDecode.hexVal]
    rw [if_neg (by omega), if_pos (by omega)]
    congr 1
    omega

/-- Unfolding of the strict percent-decoder at a non-escape byte. -/
theorem percentDecode_cons_ne (c : Nat) (rest : List Nat) (h : c ≠ 37) :
    percentDecode (c :: rest) = (percentDecode rest).map (fun l => c :: l) := by
  rw [percentDecode.eq_def]
  simp [h]

/-- Unfolding of the strict percent-decoder at a percent escape. -/
theorem percentDecode_escape (a b x y : Nat) (rest : List Nat)
    (ha : percentDecode.hexVal a = some x) (hb : percentDecode.hexVal b = some y) :
    percentDecode (37 :: a :: b :: rest)
      = (percentDecode rest).map (fun l => (16 * x + y) :: l) := by
  rw [percentDecode.eq_def]
  simp [ha, hb]

/-- Strict percent-decoding inverts the byte-string URL encoding on every
byte list that avoids the percent sign itself. -/
theorem percentDecode_url_encode (l : List Nat) (h : ∀ c ∈ l, c < 256 ∧ c ≠ 37) :
    percentDecode (url_encode_byte_string l) = some l := by
  induction l with
  | nil => rfl
  | cons c rest ih =>
    have hc := h c (List.mem_cons_self c rest)
    have ih2 := ih fun x hx => h x (List.mem_cons_of_mem _ hx)
    by_cases hu : c < 32 ∨ 127 ≤ c
    · have henc : url_encode_byte_string (c :: rest)
          = 37 :: hexDigitByte (c / 16) :: hexDigitByte (c % 16)
              :: url_encode_byte_string rest := by
        simp [url_encode_byte_string, hu]
      rw [henc, percentDecode_escape _ _ (c / 16) (c % 16) _
        (hexVal_hexDigitByte (c / 16) (by omega)) (hexVal_hexDigitByte (c % 16) (by omega)),
        ih2]
      simp only [Option.map_some']
      congr 2
      omega
    · have henc : url_encode_byte_string (c :: rest) = c :: url_encode_byte_string rest := by
        simp [url_encode_byte_string, hu]
      rw [henc, percentDecode_cons_ne c _ hc.2, ih2]
      rfl

/-- C8 (amended): bytes in the source's safe range `32..=126` pass through
as literal characters, every byte outside it becomes a percent sign followed
by exactly two hexadecimal digits (which decode back to the byte's nibbles),
and the strict percent-decoder recovers the original bytes for every input
avoiding the percent sign `0x25` — the percent sign itself, although inside
the safe range, is the one byte that breaks the round trip. -/
theorem c8_url_encoding_amended (l : List Nat) (h : ∀ c ∈ l, c < 256 ∧ c ≠ 37) :
    percentDecode (url_encode_byte_string l) = some l
    ∧ (∀ c : Nat, 32 ≤ c → c < 127 → url_encode_byte_string [c] = [c])
    ∧ (∀ c : Nat, c < 256 → (c < 32 ∨ 127 ≤ c) →
        url_encode_byte_string [c] = [37, hexDigitByte (c / 16), hexDigitByte (c % 16)]
        ∧ percentDecode.hexVal (hexDigitByte (c / 16)) = some (c / 16)
        ∧ percentDecode.hexVal (hexDigitByte (c % 16)) = some (c % 16)) := by
  refine ⟨percentDecode_url_encode l h, ?_, ?_⟩
  · intro c h1 h2
    simp [url_encode_byte_string]
    omega
  · intro c h1 h2
    refine ⟨by simp [url_encode_byte_string, h2], ?_, ?_⟩
    · exact hexVal_hexDigitByte _ (by omega)
    · exact hexVal_hexDigitByte _ (by omega)

/-- C8 amended witness: the binary info-hash-like bytes `[0x00, 0x41, 0xff]`
(none of them a percent sign) encode and decode back to themselves. -/
theorem c8_url_encoding_amended_witness :
    percentDecode (url_encode_byte_string [0, 65, 255]) = some [0, 65, 255] :=
  (c8_url_encoding_amended [0, 65, 255] (by decide)).1

/-- C9 (counterexample): at a concrete tracker request — all-zero 20-byte
info-hash and peer-id, port 6881 — the query parameter list the source
builds has exactly the keys `info_hash`, `peer_id` and `port`; no
`downloaded` and no `event` parameter is ever present, contradicting the
claimed `downloaded`/`event` parameters. -/
theorem c9_announce_query_lacks_downloaded :
    (announceQuery (List.replicate 20 0) (List.replicate 20 0) 6881).map Prod.fst
      = [strBytes "info_hash", strBytes "peer_id", strBytes "port"]
    ∧ strBytes "downloaded"
        ∉ (announceQuery (List.replicate 20 0) (List.replicate 20 0) 6881).map Prod.fst
    ∧ strBytes "event"
        ∉ (announceQuery (List.replicate 20 0) (List.replicate 20 0) 6881).map Prod.fst := by
  decide

/-- C9 (amended): for every tracker URL, info-hash, peer-id and port, the
announce request's query parameters are exactly `info_hash` and `peer_id`
(both rendered through the byte-string URL encoding) and `port` (decimal);
the source's `announce` takes no progress snapshot and never sends a
`downloaded` or `event` parameter. -/
theorem c9_announce_query_amended (ih pid : List Nat) (port : Nat) :
    announceQuery ih pid port
      = [(strBytes "info_hash", url_encode_byte_string ih),
         (strBytes "peer_id", url_encode_byte_string pid),
         (strBytes "port", natDecimal port)]
    ∧ strBytes "downloaded" ∉ (announceQuery ih pid port).map Prod.fst
    ∧ strBytes "event" ∉ (announceQuery ih pid port).map Prod.fst := by
  refine ⟨rfl, ?_, ?_⟩ <;> simp [announceQuery] <;> decide

/-! ## Claim theorems: C4, C5 -/

/-- Evaluation of the string decoder on a valid UTF-8 byte string. -/
theorem stringDecode_ok (bs : List Nat) (h : utf8Valid bs = true) :
    stringDecode (.bytes bs) = .ok bs := by
  have e : stringDecode (.bytes bs)
      = if utf8Valid bs = true then .ok bs
        else .error (.bendy (.malformedContent "invalid utf-8")) := rfl
  rw [e, if_pos h]

/-- Evaluation of the `u64` decoder on an in-range integer. -/
theorem u64Decode_int (n : Int) (h : 0 ≤ n ∧ n < 18446744073709551616) :
    u64Decode (.int n) = .ok n.toNat := by
  have e : u64Decode (.int n)
      = if 0 ≤ n ∧ n < 18446744073709551616 then .ok n.toNat
        else .error (.bendy (.malformedContent "invalid u64")) := rfl
  rw [e, if_pos h]

/-- Core of C4: however the loop state looks when the `failure reason` pair
is reached, the loop returns the failure variant, and every earlier
well-formed pair of a canonically ordered dictionary is one the loop walks
through (by canonical key order, a recognized key before `failure reason`
can only be `complete`). -/
theorem pirLoop_failure_reason (pre post : List (List Nat × Bencode)) (s : List Nat)
    (st : PIRState)
    (hv : ∀ p ∈ pre, pirValidPair p = true)
    (hlt : ∀ p ∈ pre, bytesLt p.1 frKey = true)
    (hs : utf8Valid s = true) :
    pirLoop (pre ++ (frKey, .bytes s) :: post) st = .ok (.Error s) := by
  induction pre generalizing st with
  | nil =>
    simp only [List.nil_append, pirLoop, if_pos rfl]
    rw [stringDecode_ok s hs]
    rfl
  | cons p pre ih =>
    obtain ⟨k, v⟩ := p
    have hv0 := hv (k, v) (List.mem_cons_self _ _)
    have hlt0 := hlt (k, v) (List.mem_cons_self _ _)
    have hvrest : ∀ q ∈ pre, pirValidPair q = true :=
      fun q hq => hv q (List.mem_cons_of_mem _ hq)
    have hltrest : ∀ q ∈ pre, bytesLt q.1 frKey = true :=
      fun q hq => hlt q (List.mem_cons_of_mem _ hq)
    simp only [pirValidPair, Bool.or_eq_true, Bool.and_eq_true, decide_eq_true_eq] at hv0
    rcases hv0 with ⟨hk, hval⟩ | ⟨hk, hval⟩ | ⟨hk, hval⟩ | ⟨hk, hval⟩ |
      ⟨hk, hval⟩ | ⟨hk, hval⟩ | ⟨hk, hval⟩
    · -- complete: the one recognized key ordered before `failure reason`
      subst hk
      cases v with
      | int n =>
        simp only [validU64V, decide_eq_true_eq] at hval
        simp only [List.cons_append, pirLoop]
        rw [if_neg (by decide : ¬completeKey = frKey),
          if_neg (by decide : ¬completeKey = peersKey),
          if_neg (by decide : ¬completeKey = trackerIdKey),
          if_true,
          u64Decode_int n hval]
        exact ih _ hvrest hltrest
      | bytes bs => simp [validU64V] at hval
      | list xs => simp [validU64V] at hval
      | dict ps => simp [validU64V] at hval
    · -- incomplete: impossible before `failure reason` in canonical order
      subst hk
      exact absurd (show bytesLt incompleteKey frKey = true from hlt0) (by decide)
    · subst hk
      exact absurd (show bytesLt intervalKey frKey = true from hlt0) (by decide)
    · subst hk
      exact absurd (show bytesLt minIntervalKey frKey = true from hlt0) (by decide)
    · subst hk
      exact absurd (show bytesLt trackerIdKey frKey = true from hlt0) (by decide)
    · subst hk
      exact absurd (show bytesLt warningKey frKey = true from hlt0) (by decide)
    · subst hk
      exact absurd (show bytesLt peersKey frKey = true from hlt0) (by decide)

/-- C4: for every canonically ordered tracker-response dictionary containing
a `failure reason` key with a UTF-8 byte-string value, the announce path's
`PeerInfoResult` decoder returns `PeerInfoResult::Error` with that string —
whatever other well-formed recognized pairs precede it (only `complete` can,
by key order) and whatever pairs of any shape follow it, since the
`failure reason` arm returns before they are examined. -/
theorem c4_failure_reason_short_circuit (pre post : List (List Nat × Bencode))
    (s : List Nat)
    (hv : ∀ p ∈ pre, pirValidPair p = true)
    (hlt : ∀ p ∈ pre, bytesLt p.1 frKey = true)
    (hs : utf8Valid s = true) :
    PeerInfoResult.decode_bencode_object (.dict (pre ++ (frKey, .bytes s) :: post))
      = .ok (.Error s) := by
  simp only [PeerInfoResult.decode_bencode_object, tryIntoDict]
  exact pirLoop_failure_reason pre post s {} hv hlt hs

/-- C4 witness: a concrete response carrying `complete` before the failure
reason and a (non-empty, otherwise panicking) compact `peers` blob after it
still decodes to the failure variant. -/
theorem c4_failure_reason_short_circuit_witness :
    PeerInfoResult.decode_bencode_object
        (.dict ([(completeKey, .int 3)]
          ++ (frKey, .bytes (strBytes "busy")) :: [(peersKey, .bytes [9, 9, 9])]))
      = .ok (.Error (strBytes "busy")) :=
  c4_failure_reason_short_circuit [(completeKey, .int 3)] [(peersKey, .bytes [9, 9, 9])]
    (strBytes "busy") (by decide) (by decide) (by decide)

/-- C5 (code_bug evidence): a tracker response whose `peers` value is a
well-formed bencoded list of peer dictionaries is rejected with an
unexpected-token error — `try_into_bytes` runs first and refuses a list
object — and the dictionary-list branch guarded by
`Object::Bytes(peer_bytes).try_into_list()` is unreachable for every byte
string, so the decoder never tries the list form at all. -/
theorem c5_peer_list_branch_dead :
    PeerInfoResult.decode_bencode_object c5PeersList
      = .error (.bendy (.unexpectedToken "ByteString" "List"))
    ∧ ∀ bs : List Nat, tryIntoList (Bencode.bytes bs)
      = .error (.bendy (.unexpectedToken "List" "ByteString")) := by
  refine ⟨by decide, fun bs => rfl⟩

/-! ## Claim theorems: C1, C6, C10 -/

/-- Twenty bytes come out of the SHA-1 embedding for every input. -/
theorem sha1_length (msg : List Nat) : (sha1 msg).length = 20 := by
  simp [sha1, word32ToBytes]

/-- C1 (code_bug evidence): on a well-formed torrent — canonical top-level
dictionary with an `announce` string and an `info` dictionary — the decoder
fails with an unexpected-token error instead of producing a `MetaInfoFile`,
because the `info` arm calls `try_into_bytes` on the dictionary-shaped
`info` value, which `bendy` refuses; so no decoded `MetaInfoFile` (and no
info-hash over the raw `info` span) is ever produced for a real torrent.
The digest function itself does emit 20 bytes for every input. -/
theorem c1_metainfo_decode_rejects_dict_info :
    MetaInfoFile.decode_bencode_object c1Torrent
      = .error (.bendy (.unexpectedToken "ByteString" "Dict"))
    ∧ ∀ bs : List Nat, (InfoHash.from_info_bytes bs).bytes.length = 20 := by
  refine ⟨by decide, fun bs => sha1_length bs⟩

/-- Evaluation of one valid `info` pair: the step succeeds and performs the
pure state update of `infoFoldStep`. -/
theorem infoStep_valid (k : List Nat) (v : Bencode) (st : InfoState)
    (h : infoValidPair (k, v) = true) :
    infoStep k v st = .ok (infoFoldStep st (k, v)) := by
  by_cases h1 : k = nameKey
  · subst h1
    cases v with
    | bytes bs =>
      simp only [infoValidPair, validStrV, if_pos rfl, if_true] at h
      simp only [infoStep, infoFoldStep, if_pos rfl, if_true]
      rw [stringDecode_ok bs h]
      rfl
    | int n => simp [infoValidPair, validStrV] at h
    | list xs => simp [infoValidPair, validStrV] at h
    | dict ps => simp [infoValidPair, validStrV] at h
  · by_cases h2 : k = pieceLengthKey
    · subst h2
      cases v with
      | int n =>
        simp only [infoValidPair, validU64V, if_neg h1, if_pos rfl, if_true,
          decide_eq_true_eq] at h
        simp only [infoStep, infoFoldStep, if_neg h1, if_pos rfl, if_true]
        rw [u64Decode_int n h]
        rfl
      | bytes bs => simp [infoValidPair, validU64V, h1] at h
      | list xs => simp [infoValidPair, validU64V, h1] at h
      | dict ps => simp [infoValidPair, validU64V, h1] at h
    · by_cases h3 : k = piecesKey
      · subst h3
        cases v with
        | bytes bs =>
          simp only [infoStep, infoFoldStep, if_neg h1, if_neg h2, if_pos rfl, if_true]
          rfl
        | int n => simp [infoValidPair, h1, h2] at h
        | list xs => simp [infoValidPair, h1, h2] at h
        | dict ps => simp [infoValidPair, h1, h2] at h
      · by_cases h4 : k = lengthKey
        · subst h4
          cases v with
          | int n =>
            simp only [infoValidPair, validU64V, if_neg h1, if_neg h2, if_neg h3,
              if_pos rfl, if_true, decide_eq_true_eq] at h
            simp only [infoStep, infoFoldStep, if_neg h1, if_neg h2, if_neg h3,
              if_pos rfl, if_true]
            rw [u64Decode_int n h]
            rfl
          | bytes bs => simp [infoValidPair, validU64V, h1, h2, h3] at h
          | list xs => simp [infoValidPair, validU64V, h1, h2, h3] at h
          | dict ps => simp [infoValidPair, validU64V, h1, h2, h3] at h
        · by_cases h5 : k = privateKey
          · subst h5
            cases v with
            | int n =>
              simp only [infoValidPair, validU8V, if_neg h1, if_neg h2, if_neg h3,
                if_neg h4, if_pos rfl, if_true, decide_eq_true_eq] at h
              simp only [infoStep, infoFoldStep, if_neg h1, if_neg h2, if_neg h3,
                if_neg h4, if_pos rfl, if_true]
              have e : u8Decode (.int n)
                  = if 0 ≤ n ∧ n < 256 then .ok n.toNat
                    else .error (.bendy (.malformedContent "invalid u8")) := rfl
              rw [e, if_pos h]
              rfl
            | bytes bs => simp [infoValidPair, validU8V, h1, h2, h3, h4] at h
            | list xs => simp [infoValidPair, validU8V, h1, h2, h3, h4] at h
            | dict ps => simp [infoValidPair, validU8V, h1, h2, h3, h4] at h
          · by_cases h6 : k = filesKey
            · exfalso
              subst h6
              simp [infoValidPair, h1, h2, h3, h4, h5] at h
            · simp only [infoStep, infoFoldStep, if_neg h1, if_neg h2, if_neg h3,
                if_neg h4, if_neg h5, if_neg h6]

/-- A valid `info` pair list drives the loop exactly as the pure fold. -/
theorem infoLoop_valid (ps : List (List Nat × Bencode)) (st : InfoState)
    (hv : ∀ p ∈ ps, infoValidPair p = true) :
    infoLoop ps st = infoFinalize (ps.foldl infoFoldStep st) := by
  induction ps generalizing st with
  | nil => rfl
  | cons p rest ih =>
    obtain ⟨k, v⟩ := p
    simp only [infoLoop, List.foldl_cons]
    rw [infoStep_valid k v st (hv _ (List.mem_cons_self _ _))]
    exact ih _ fun q hq => hv q (List.mem_cons_of_mem _ hq)

/-- The pure step never touches the `files` field. -/
theorem infoFoldStep_files (st : InfoState) (p : List Nat × Bencode) :
    (infoFoldStep st p).files = st.files := by
  obtain ⟨k, v⟩ := p
  unfold infoFoldStep
  split_ifs <;> (cases v <;> rfl)

/-- The pure step keeps `length` untouched away from the `length` key. -/
theorem infoFoldStep_length (st : InfoState) (k : List Nat) (v : Bencode)
    (h : k ≠ lengthKey) :
    (infoFoldStep st (k, v)).length = st.length := by
  unfold infoFoldStep
  split_ifs <;> first | rfl | (cases v <;> rfl)

/-- The fold never sets `files`. -/
theorem infoFold_files (ps : List (List Nat × Bencode)) (st : InfoState) :
    (ps.foldl infoFoldStep st).files = st.files := by
  induction ps generalizing st with
  | nil => rfl
  | cons p rest ih => exact (ih _).trans (infoFoldStep_files st p)

/-- The fold keeps `length` at `none` when no pair uses the `length` key. -/
theorem infoFold_length_none (ps : List (List Nat × Bencode)) (st : InfoState)
    (h : ∀ p ∈ ps, p.1 ≠ lengthKey) (h0 : st.length = none) :
    (ps.foldl infoFoldStep st).length = none := by
  induction ps generalizing st with
  | nil => exact h0
  | cons p rest ih =>
    obtain ⟨k, v⟩ := p
    simp only [List.foldl_cons]
    exact ih _ (fun q hq => h q (List.mem_cons_of_mem _ hq))
      ((infoFoldStep_length st k v (h (k, v) (List.mem_cons_self _ _))).trans h0)

/-- Once set, `name` stays set across the pure step. -/
theorem infoFoldStep_name_mono (st : InfoState) (p : List Nat × Bencode)
    (h : st.name.isSome = true) : (infoFoldStep st p).name.isSome = true := by
  obtain ⟨k, v⟩ := p
  unfold infoFoldStep
  split_ifs <;> (cases v <;> simp [h])

/-- Once set, `piece_length` stays set across the pure step. -/
theorem infoFoldStep_pl_mono (st : InfoState) (p : List Nat × Bencode)
    (h : st.piece_length.isSome = true) :
    (infoFoldStep st p).piece_length.isSome = true := by
  obtain ⟨k, v⟩ := p
  unfold infoFoldStep
  split_ifs <;> (cases v <;> simp [h])

/-- Once set, `pieces` stays set across the pure step. -/
theorem infoFoldStep_pieces_mono (st : InfoState) (p : List Nat × Bencode)
    (h : st.pieces.isSome = true) : (infoFoldStep st p).pieces.isSome = true := by
  obtain ⟨k, v⟩ := p
  unfold infoFoldStep
  split_ifs <;> (cases v <;> simp [h])

/-- Once set, `name` stays set across the fold. -/
theorem infoFold_name_mono (ps : List (List Nat × Bencode)) (st : InfoState)
    (h : st.name.isSome = true) : (ps.foldl infoFoldStep st).name.isSome = true := by
  induction ps generalizing st with
  | nil => exact h
  | cons p rest ih => exact ih _ (infoFoldStep_name_mono st p h)

/-- Once set, `piece_length` stays set across the fold. -/
theorem infoFold_pl_mono (ps : List (List Nat × Bencode)) (st : InfoState)
    (h : st.piece_length.isSome = true) :
    (ps.foldl infoFoldStep st).piece_length.isSome = true := by
  induction ps generalizing st with
  | nil => exact h
  | cons p rest ih => exact ih _ (infoFoldStep_pl_mono st p h)

/-- Once set, `pieces` stays set across the fold. -/
theorem infoFold_pieces_mono (ps : List (List Nat × Bencode)) (st : InfoState)
    (h : st.pieces.isSome = true) : (ps.foldl infoFoldStep st).pieces.isSome = true := by
  induction ps generalizing st with
  | nil => exact h
  | cons p rest ih => exact ih _ (infoFoldStep_pieces_mono st p h)

/-- A present, valid `name` pair leaves the folded `name` set. -/
theorem infoFold_name_some (ps : List (List Nat × Bencode)) (st : InfoState)
    (hv : ∀ p ∈ ps, infoValidPair p = true)
    (h : nameKey ∈ ps.map Prod.fst) :
    (ps.foldl infoFoldStep st).name.isSome = true := by
  induction ps generalizing st with
  | nil => simp at h
  | cons p rest ih =>
    obtain ⟨k, v⟩ := p
    simp only [List.map_cons, List.mem_cons] at h
    simp only [List.foldl_cons]
    rcases h with hk | hk
    · subst hk
      have hvp := hv (nameKey, v) (List.mem_cons_self _ _)
      cases v with
      | bytes bs =>
        refine infoFold_name_mono rest _ ?_
        simp [infoFoldStep]
      | int n => simp [infoValidPair, validStrV] at hvp
      | list xs => simp [infoValidPair, validStrV] at hvp
      | dict qs => simp [infoValidPair, validStrV] at hvp
    · exact ih _ (fun q hq => hv q (List.mem_cons_of_mem _ hq)) hk

/-- A present, valid `piece length` pair leaves the folded field set. -/
theorem infoFold_pl_some (ps : List (List Nat × Bencode)) (st : InfoState)
    (hv : ∀ p ∈ ps, infoValidPair p = true)
    (h : pieceLengthKey ∈ ps.map Prod.fst) :
    (ps.foldl infoFoldStep st).piece_length.isSome = true := by
  induction ps generalizing st with
  | nil => simp at h
  | cons p rest ih =>
    obtain ⟨k, v⟩ := p
    simp only [List.map_cons, List.mem_cons] at h
    simp only [List.foldl_cons]
    rcases h with hk | hk
    · subst hk
      have hvp := hv (pieceLengthKey, v) (List.mem_cons_self _ _)
      cases v with
      | int n =>
        refine infoFold_pl_mono rest _ ?_
        simp [infoFoldStep, (show ¬pieceLengthKey = nameKey by decide)]
      | bytes bs =>
        simp [infoValidPair, validU64V,
          (show ¬pieceLengthKey = nameKey by decide)] at hvp
      | list xs =>
        simp [infoValidPair, validU64V,
          (show ¬pieceLengthKey = nameKey by decide)] at hvp
      | dict qs =>
        simp [infoValidPair, validU64V,
          (show ¬pieceLengthKey = nameKey by decide)] at hvp
    · exact ih _ (fun q hq => hv q (List.mem_cons_of_mem _ hq)) hk

/-- A present, valid `pieces` pair leaves the folded field set. -/
theorem infoFold_pieces_some (ps : List (List Nat × Bencode)) (st : InfoState)
    (hv : ∀ p ∈ ps, infoValidPair p = true)
    (h : piecesKey ∈ ps.map Prod.fst) :
    (ps.foldl infoFoldStep st).pieces.isSome = true := by
  induction ps generalizing st with
  | nil => simp at h
  | cons p rest ih =>
    obtain ⟨k, v⟩ := p
    simp only [List.map_cons, List.mem_cons] at h
    simp only [List.foldl_cons]
    rcases h with hk | hk
    · subst hk
      have hvp := hv (piecesKey, v) (List.mem_cons_self _ _)
      cases v with
      | bytes bs =>
        refine infoFold_pieces_mono rest _ ?_
        simp [infoFoldStep, (show ¬piecesKey = nameKey by decide),
          (show ¬piecesKey = pieceLengthKey by decide)]
      | int n =>
        simp [infoValidPair, (show ¬piecesKey = nameKey by decide),
          (show ¬piecesKey = pieceLengthKey by decide)] at hvp
      | list xs =>
        simp [infoValidPair, (show ¬piecesKey = nameKey by decide),
          (show ¬piecesKey = pieceLengthKey by decide)] at hvp
      | dict qs =>
        simp [infoValidPair, (show ¬piecesKey = nameKey by decide),
          (show ¬piecesKey = pieceLengthKey by decide)] at hvp
    · exact ih _ (fun q hq => hv q (List.mem_cons_of_mem _ hq)) hk

/-- C6 (counterexample): on an `info` dictionary with `name`, `piece length`
and `pieces` but neither `length` nor `files`, the decoder does not return
an error value — it panics (the `expect("should have files key")` call), so
the rejection is not the returned hard decode error the claim describes. -/
theorem c6_missing_both_panics_counterexample :
    Info.decode_bencode_object c6Info = .error (.panicked "should have files key")
    ∧ isReturnedError (Info.decode_bencode_object c6Info) = false := by
  decide

/-- C6 (amended): for every `info` dictionary whose pairs are well-formed,
which carries `name`, `piece length` and `pieces`, and which contains
neither a `length` nor a `files` key (well-formedness as used here already
excludes `files` pairs), the decoder takes the MultiFile branch and aborts
with the panic of `files.expect("should have files key")` — a defaulted
variant is never produced, but neither is a returned decode-error value;
presence of `length` instead selects the SingleFile branch
(`Some(length)` match at `src/metainfo.rs` line 157). -/
theorem c6_missing_both_panics (ps : List (List Nat × Bencode))
    (hv : ∀ p ∈ ps, infoValidPair p = true)
    (hnl : ∀ p ∈ ps, p.1 ≠ lengthKey)
    (hname : nameKey ∈ ps.map Prod.fst)
    (hpl : pieceLengthKey ∈ ps.map Prod.fst)
    (hpc : piecesKey ∈ ps.map Prod.fst) :
    Info.decode_bencode_object (.dict ps)
      = .error (.panicked "should have files key") := by
  have e : Info.decode_bencode_object (.dict ps) = infoLoop ps {} := rfl
  rw [e, infoLoop_valid ps {} hv]
  have hl : (ps.foldl infoFoldStep {}).length = none :=
    infoFold_length_none ps {} hnl rfl
  have hf : (ps.foldl infoFoldStep {}).files = none := infoFold_files ps {}
  obtain ⟨nm, hnm⟩ := Option.isSome_iff_exists.mp (infoFold_name_some ps {} hv hname)
  obtain ⟨pl, hplv⟩ := Option.isSome_iff_exists.mp (infoFold_pl_some ps {} hv hpl)
  obtain ⟨pc, hpcv⟩ := Option.isSome_iff_exists.mp (infoFold_pieces_some ps {} hv hpc)
  simp only [infoFinalize, hl, hf, hnm, hplv, hpcv]

/-- C6 amended witness at the concrete no-length-no-files dictionary. -/
theorem c6_missing_both_panics_witness :
    Info.decode_bencode_object
        (.dict [(nameKey, .bytes (strBytes "a")), (pieceLengthKey, .int 16384),
                (piecesKey, .bytes [])])
      = .error (.panicked "should have files key") :=
  c6_missing_both_panics
    [(nameKey, .bytes (strBytes "a")), (pieceLengthKey, .int 16384),
     (piecesKey, .bytes [])]
    (by decide) (by decide) (by decide) (by decide) (by decide)

/-- An unrecognized key leaves the `Info` step as a no-op. -/
theorem infoStep_unknown (u : List Nat) (v : Bencode) (st : InfoState)
    (h1 : u ≠ nameKey) (h2 : u ≠ pieceLengthKey) (h3 : u ≠ piecesKey)
    (h4 : u ≠ lengthKey) (h5 : u ≠ privateKey) (h6 : u ≠ filesKey) :
    infoStep u v st = .ok st := by
  simp only [infoStep]
  rw [if_neg h1, if_neg h2, if_neg h3, if_neg h4, if_neg h5, if_neg h6]

/-- An unrecognized key leaves the `File` step as a no-op. -/
theorem fileStep_unknown (u : List Nat) (v : Bencode) (st : FileState)
    (h1 : u ≠ lengthKey) (h2 : u ≠ pathKey) (h3 : u ≠ md5sumKey) :
    fileStep u v st = .ok st := by
  simp only [fileStep]
  rw [if_neg h1, if_neg h2, if_neg h3]

/-- Inserting an unrecognized pair anywhere in an `Info` dictionary does not
change the decoding result. -/
theorem infoLoop_insert_unknown (pre post : List (List Nat × Bencode))
    (u : List Nat) (v : Bencode) (st : InfoState)
    (h1 : u ≠ nameKey) (h2 : u ≠ pieceLengthKey) (h3 : u ≠ piecesKey)
    (h4 : u ≠ lengthKey) (h5 : u ≠ privateKey) (h6 : u ≠ filesKey) :
    infoLoop (pre ++ (u, v) :: post) st = infoLoop (pre ++ post) st := by
  induction pre generalizing st with
  | nil =>
    simp only [List.nil_append, infoLoop]
    rw [infoStep_unknown u v st h1 h2 h3 h4 h5 h6]
    rfl
  | cons q pre ih =>
    obtain ⟨k, w⟩ := q
    simp only [List.cons_append, infoLoop]
    cases hs : infoStep k w st with
    | ok st2 => exact ih st2
    | error e => rfl

/-- Inserting an unrecognized pair anywhere in a `File` dictionary does not
change the decoding result. -/
theorem fileLoop_insert_unknown (pre post : List (List Nat × Bencode))
    (u : List Nat) (v : Bencode) (st : FileState)
    (h1 : u ≠ lengthKey) (h2 : u ≠ pathKey) (h3 : u ≠ md5sumKey) :
    fileLoop (pre ++ (u, v) :: post) st = fileLoop (pre ++ post) st := by
  induction pre generalizing st with
  | nil =>
    simp only [List.nil_append, fileLoop]
    rw [fileStep_unknown u v st h1 h2 h3]
    rfl
  | cons q pre ih =>
    obtain ⟨k, w⟩ := q
    simp only [List.cons_append, fileLoop]
    cases hs : fileStep k w st with
    | ok st2 => exact ih st2
    | error e => rfl

/-- C10 (counterexample): a single-file `info` dictionary carrying the
unrecognized key `zzz` decodes successfully — the decoder silently ignores
the unknown key instead of failing with an unexpected-field error. -/
theorem c10_unknown_key_accepted_counterexample :
    Info.decode_bencode_object c10Info
      = .ok (.SingleFileInfo (strBytes "a") 16384 [] 3 none)
    ∧ isReturnedError (Info.decode_bencode_object c10Info) = false := by
  decide

/-- C10 (amended): the `info` and file-entry decoders follow an open
schema — a pair with a key outside the recognized sets (`name`,
`piece length`, `pieces`, `length`, `private`, `files`; and `length`,
`path`, `md5sum` for file entries) is silently skipped wherever it appears,
leaving the decoding result unchanged; no unexpected-field error is
raised there. -/
theorem c10_unknown_keys_ignored (pre post : List (List Nat × Bencode))
    (u : List Nat) (v : Bencode)
    (h1 : u ≠ nameKey) (h2 : u ≠ pieceLengthKey) (h3 : u ≠ piecesKey)
    (h4 : u ≠ lengthKey) (h5 : u ≠ privateKey) (h6 : u ≠ filesKey)
    (h7 : u ≠ pathKey) (h8 : u ≠ md5sumKey) :
    Info.decode_bencode_object (.dict (pre ++ (u, v) :: post))
      = Info.decode_bencode_object (.dict (pre ++ post))
    ∧ File.decode_bencode_object (.dict (pre ++ (u, v) :: post))
      = File.decode_bencode_object (.dict (pre ++ post)) := by
  constructor
  · show infoLoop (pre ++ (u, v) :: post) {} = infoLoop (pre ++ post) {}
    exact infoLoop_insert_unknown pre post u v {} h1 h2 h3 h4 h5 h6
  · show fileLoop (pre ++ (u, v) :: post) {} = fileLoop (pre ++ post) {}
    exact fileLoop_insert_unknown pre post u v {} h4 h7 h8

/-- C10 amended witness: dropping the pair `zzz ↦ 0` into empty `info` and
file dictionaries changes neither decoding result. -/
theorem c10_unknown_keys_ignored_witness :
    Info.decode_bencode_object (.dict ([] ++ (strBytes "zzz", Bencode.int 0) :: []))
      = Info.decode_bencode_object (.dict ([] ++ []))
    ∧ File.decode_bencode_object (.dict ([] ++ (strBytes "zzz", Bencode.int 0) :: []))
      = File.decode_bencode_object (.dict ([] ++ [])) :=
  c10_unknown_keys_ignored [] [] (strBytes "zzz") (.int 0)
    (by decide) (by decide) (by decide) (by decide) (by decide) (by decide)
    (by decide) (by decide)

end BT
